import Mathlib

set_option maxRecDepth 200000

/-!
Shallow embedding of the query-interpretation and ranking core of the
product-search service (source files: src/utils/queryParser.js and the
RankingService portion of src/services/searchServices.js).

Modelling conventions:
* JavaScript numbers are modelled as exact rationals (ℚ).  All values the
  ranking pipeline manipulates are small decimals, sums, products and
  quotients of such, so rational arithmetic mirrors the source except for
  float rounding, which none of the verified claims depends on.
* Possibly-missing object fields are modelled as Option values; the JS
  coalescing idioms are modelled explicitly: jsOrQ models the numeric
  truthiness fallback x || d, Option.getD models the nullish fallback x ?? d.
* Math.log1p is a transcendental function with no exact rational
  counterpart.  Every definition that needs it takes an arbitrary
  log1p : ℚ → ℚ parameter, and all theorems are proved for every such
  parameter, hence in particular for the real Math.log1p.
* The module-level constant CURRENT_YEAR (wall-clock year captured at load
  time) is likewise passed as an explicit parameter.
* Regular-expression matching from the source is modelled by direct
  leftmost-match scanners over character lists that implement exactly the
  concrete patterns appearing in the source.
* String.replace with the global flag is modelled by a fuel-indexed scanner
  (fuel = length of the subject string, which bounds the number of steps);
  the fuel is an encoding device only, it never runs out.
-/

namespace JumboSearch

/-- Truthiness fallback on numbers: models the JS expression x || d for a
possibly-missing numeric field (null, undefined and 0 are falsy). -/
def jsOrQ (x : Option ℚ) (d : ℚ) : ℚ :=
  match x with
  | some v => if v = 0 then d else v
  | none => d

/-- Truthiness test for a possibly-missing number, as used in JS conditions. -/
def jsTruthyQ (x : Option ℚ) : Bool :=
  match x with
  | some v => v ≠ 0
  | none => false

/-- Truthiness fallback on strings: models x || "" (undefined and "" give ""). -/
def jsStr (x : Option String) : String := x.getD ""

/-- Truthiness test for a possibly-missing string ("" is falsy). -/
def jsTruthyS (x : Option String) : Bool :=
  match x with
  | some s => s ≠ ""
  | none => false

/-- Truthiness chain on possibly-missing strings: models a || b. -/
def jsOrS (a b : Option String) : Option String :=
  match a with
  | some s => if s = "" then b else some s
  | none => b

/-- Math.round: half-up rounding, exact on rationals. -/
def jsRound (x : ℚ) : ℚ := ((⌊x + 1/2⌋ : ℤ) : ℚ)

/-- Number.prototype.toFixed (result coerced back to a number by the unary +
in the source): rounding to d decimal places.  JS rounds half away from
zero; the scores this is applied to are all nonnegative, where that agrees
with the half-up rounding used here. -/
def toFixedQ (d : ℕ) (x : ℚ) : ℚ := ((⌊x * 10 ^ d + 1/2⌋ : ℤ) : ℚ) / 10 ^ d

/-- Whitespace characters recognised by the model (covers every character
class that the queries and catalog fields in the source can contain). -/
def isWSChar (c : Char) : Bool :=
  c == ' ' || c == '\t' || c == '\n' || c == '\r' || c == '\x0b' || c == '\x0c'

/-- Digit test for the \d regex class. -/
def isDigitChar (c : Char) : Bool := c.isDigit

/-- Word-character test for the \w class and \b boundaries: [A-Za-z0-9_]. -/
def isWordChar (c : Char) : Bool := c.isAlphanum || c == '_'

/-- Characters kept by the token cleanup replace(/[^a-z0-9]/g, ""). -/
def isTokenChar (c : Char) : Bool :=
  (decide ('a' ≤ c) && decide (c ≤ 'z')) || (decide ('0' ≤ c) && decide (c ≤ '9'))

/-- String.prototype.trim on a character list. -/
def trimChars (l : List Char) : List Char :=
  ((l.dropWhile isWSChar).reverse.dropWhile isWSChar).reverse

/-- String.prototype.includes: substring containment. -/
def strContains (hay needle : List Char) : Bool :=
  hay.tails.any (fun t => needle.isPrefixOf t)

/-- No word character at the given previous-character position (left \b). -/
def noWordBefore : Option Char → Bool
  | none => true
  | some c => !(isWordChar c)

/-- No word character at the head of the remaining text (right \b). -/
def noWordAt : List Char → Bool
  | [] => true
  | c :: _ => !(isWordChar c)

/-- The pattern pat matches at the current position with word boundaries on
both sides, prev being the character immediately before the position. -/
def wordBoundedAt (pat : List Char) (prev : Option Char) (l : List Char) : Bool :=
  pat.isPrefixOf l && noWordBefore prev && noWordAt (l.drop pat.length)

/-- Scan for a word-bounded occurrence of pat, tracking the previous char. -/
def containsWordFrom (pat : List Char) : Option Char → List Char → Bool
  | prev, [] => wordBoundedAt pat prev []
  | prev, c :: rest =>
    wordBoundedAt pat prev (c :: rest) || containsWordFrom pat (some c) rest

/-- Test of a word-bounded regex such as \bcheap\b against the whole string. -/
def containsWord (pat l : List Char) : Bool := containsWordFrom pat none l

/-- One pass of String.replace(new RegExp(pat, "g"), repl) for a literal
pattern: replaces every non-overlapping occurrence left to right, never
rescanning replacement text.  Fuel-indexed; each step consumes at least one
character of the subject, so fuel = subject length always suffices. -/
def replaceAllAux (pat repl : List Char) : ℕ → List Char → List Char
  | 0, l => l
  | _ + 1, [] => []
  | fuel + 1, c :: rest =>
    if pat ≠ [] ∧ pat.isPrefixOf (c :: rest) then
      repl ++ replaceAllAux pat repl fuel ((c :: rest).drop pat.length)
    else
      c :: replaceAllAux pat repl fuel rest

/-- String.replace(new RegExp(pat, "gi"), repl) on an already-lowercased
subject with a lowercase literal pattern. -/
def replaceAll (pat repl l : List Char) : List Char :=
  replaceAllAux pat repl l.length l

/-- One pass of the word-bounded global replace used for spelling fixes,
modelling new RegExp("\\b" + pat + "\\b", "gi").  After a replacement the
scan resumes right after the replacement text, whose last character becomes
the previous character for the next boundary test. -/
def replaceWordAux (pat repl : List Char) : ℕ → Option Char → List Char → List Char
  | 0, _, l => l
  | _ + 1, _, [] => []
  | fuel + 1, prev, c :: rest =>
    if pat ≠ [] ∧ wordBoundedAt pat prev (c :: rest) then
      repl ++ replaceWordAux pat repl fuel
        (match repl.getLast? with
         | some d => some d
         | none => prev)
        ((c :: rest).drop pat.length)
    else
      c :: replaceWordAux pat repl fuel (some c) rest

/-- Word-bounded global replace over a whole string. -/
def replaceWord (pat repl l : List Char) : List Char :=
  replaceWordAux pat repl l.length none l

/-- Leftmost-match regex search: try the anchored matcher f at every start
position from the left, like RegExp.prototype.exec. -/
def scanSuffixes {α : Type} (f : List Char → Option α) : List Char → Option α
  | [] => f []
  | c :: rest =>
    match f (c :: rest) with
    | some x => some x
    | none => scanSuffixes f rest

/-- Maximal leading digit run. -/
def takeDigits (l : List Char) : List Char := l.takeWhile isDigitChar

/-- Numeric value of a digit run (parseInt on a nonempty all-digit string). -/
def natOfDigits (l : List Char) : ℕ :=
  l.foldl (fun acc c => 10 * acc + (c.toNat - 48)) 0

/-- First digit run anywhere in the string: s.match(/\d+/)?.[0], where the
empty result models the || "0" fallback (its value is 0 either way). -/
def firstDigitRun : List Char → List Char
  | [] => []
  | c :: rest =>
    if isDigitChar c then c :: rest.takeWhile isDigitChar else firstDigitRun rest

/-- parseInt(s, 10): optional leading whitespace, optional sign, then a
nonempty digit run; none models NaN. -/
def jsParseInt (s : String) : Option ℤ :=
  let l := s.data.dropWhile isWSChar
  let digitsOf : List Char → Option ℤ := fun r =>
    let ds := takeDigits r
    if ds.isEmpty then none else some ((natOfDigits ds : ℕ) : ℤ)
  match l with
  | '-' :: r => (digitsOf r).map (fun n => -n)
  | '+' :: r => digitsOf r
  | r => digitsOf r

/-- split(/\s+/) on a trimmed subject: maximal non-whitespace runs in order.
(On an untrimmed subject JS would emit a leading empty string; every use in
the source filters out short tokens, so the results agree.) -/
def splitWsAux : List Char → List Char → List (List Char)
  | cur, [] => if cur.isEmpty then [] else [cur.reverse]
  | cur, c :: rest =>
    if isWSChar c then
      if cur.isEmpty then splitWsAux [] rest else cur.reverse :: splitWsAux [] rest
    else
      splitWsAux (c :: cur) rest

/-- Whitespace tokenisation of a string. -/
def splitWs (l : List Char) : List (List Char) := splitWsAux [] l

/-- HINGLISH_MAP from src/utils/queryParser.js, in object-literal insertion
order (which is the order Object.keys returns for string keys). -/
def HINGLISH_MAP : List (String × String) :=
  [("sasta", "cheap"), ("sastha", "cheap"), ("sasta wala", "cheap"),
   ("saste mein", "cheap"), ("kam daam", "cheap"), ("low price", "cheap"),
   ("mahenga", "premium"), ("best deal", "cheap"),
   ("naya", "latest"), ("naya wala", "latest"), ("latest", "latest"),
   ("nayi", "latest"), ("new", "latest"),
   ("best", "best"), ("badiya", "best"), ("achha", "best"), ("top", "best"),
   ("jyada storage", "more storage"), ("zyada storage", "more storage"),
   ("zyada memory", "more storage"),
   ("strong cover", "strong"), ("tough cover", "strong"), ("tanki", "strong"),
   ("laal", "red"), ("neela", "blue"), ("safed", "white"), ("kala", "black"),
   ("peela", "yellow"), ("hara", "green"), ("narangi", "orange"),
   ("sunhara", "gold")]

/-- SPELLING_MAP from src/utils/queryParser.js, in insertion order. -/
def SPELLING_MAP : List (String × String) :=
  [("ifone", "iphone"), ("iphone", "iphone"), ("i phone", "iphone"),
   ("iphon", "iphone"), ("ipone", "iphone"), ("aifon", "iphone"),
   ("samsng", "samsung"), ("samsun", "samsung"), ("samung", "samsung"),
   ("samasung", "samsung"), ("samsumg", "samsung"),
   ("oneplus", "oneplus"), ("one plus", "oneplus"), ("1 plus", "oneplus"),
   ("realmi", "realme"), ("realmee", "realme"), ("real me", "realme"),
   ("redme", "redmi"), ("red mi", "redmi"),
   ("xaomi", "xiaomi"), ("xiomi", "xiaomi"),
   ("soni", "sony"), ("jbl", "jbl"), ("boat", "boat"),
   ("lenovo", "lenovo"), ("lenova", "lenovo"), ("lenovoo", "lenovo"),
   ("macbook", "macbook"), ("mac book", "macbook"),
   ("dell", "dell"), ("deil", "dell")]

/-- COLOR_KEYWORDS from src/utils/queryParser.js. -/
def COLOR_KEYWORDS : List String :=
  ["red", "blue", "black", "white", "gold", "silver", "green",
   "yellow", "purple", "pink", "orange", "grey", "gray",
   "midnight", "starlight", "titanium", "graphite", "coral", "lavender"]

/-- BRANDS from src/utils/queryParser.js. -/
def BRANDS : List String :=
  ["apple", "iphone", "samsung", "oneplus", "realme", "redmi", "xiaomi",
   "poco", "vivo", "oppo", "motorola", "nokia", "asus", "rog",
   "dell", "hp", "lenovo", "acer", "msi", "macbook",
   "sony", "jbl", "boat", "noise", "sennheiser", "bose", "audio-technica",
   "boAt", "ptron", "zebronics"]

/-- STOPWORDS from src/utils/queryParser.js. -/
def STOPWORDS : List String :=
  ["the", "a", "an", "and", "or", "for", "with", "in", "of", "at", "to", "on"]

/-- Stable insertion of a key/value pair into a list sorted by key length,
longest first: placed before the first entry whose key is not longer. -/
def insertPairByLen (x : String × String) : List (String × String) → List (String × String)
  | [] => [x]
  | y :: ys =>
    if y.1.length ≤ x.1.length then x :: y :: ys else y :: insertPairByLen x ys

/-- Stable sort of a substitution table by key length, longest first:
models Object.keys(map).sort((a, b) => b.length - a.length), JS sort being
stable so equal-length keys keep their insertion order. -/
def sortPairsByLenDesc : List (String × String) → List (String × String)
  | [] => []
  | x :: xs => insertPairByLen x (sortPairsByLenDesc xs)

/-- Steps 1-2 of parseQuery: lowercase, trim, Hinglish substitutions
(longest key first, plain global replace guarded by an includes check),
then spelling corrections (longest key first, word-bounded global replace). -/
def normalizeQuery (rawQuery : Option String) : List Char :=
  let q0 := trimChars ((jsStr rawQuery).data.map Char.toLower)
  let q1 := (sortPairsByLenDesc HINGLISH_MAP).foldl
    (fun q kv => if strContains q kv.1.data then replaceAll kv.1.data kv.2.data q else q) q0
  (sortPairsByLenDesc SPELLING_MAP).foldl
    (fun q kv => if strContains q kv.1.data then replaceWord kv.1.data kv.2.data q else q) q1

/-- The six independent intent flags of a parsed query. -/
structure Intent where
  cheap : Bool
  latest : Bool
  best : Bool
  premium : Bool
  moreStorage : Bool
  strong : Bool
deriving DecidableEq, Repr

/-- Step 3 of parseQuery: intent flags by fixed keyword/regex detection. -/
def extractIntent (q : List Char) : Intent where
  cheap := containsWord "cheap".data q || strContains q "budget".data
  latest := ["latest", "new", "newest", "recent"].any (fun w => containsWord w.data q)
  best := containsWord "best".data q
  premium := ["premium", "flagship", "pro", "ultra", "mahenga"].any
    (fun w => containsWord w.data q)
  moreStorage := ["more storage", "more memory", "high storage", "large storage"].any
    (fun w => containsWord w.data q)
  strong := ["strong", "tough", "rugged", "durable"].any (fun w => containsWord w.data q)

/-- Anchored matcher for STORAGE_PATTERN /(\d+)\s*(gb|tb|mb)/i on the
lowercased query: digit run, optional whitespace, then a unit, returning
the captured value and unit. -/
def storageMatchAt (l : List Char) : Option (ℕ × List Char) :=
  let ds := takeDigits l
  if ds.isEmpty then none
  else
    let r := (l.drop ds.length).dropWhile isWSChar
    if ([ 'g', 'b'] : List Char).isPrefixOf r then some (natOfDigits ds, ['g', 'b'])
    else if ([ 't', 'b'] : List Char).isPrefixOf r then some (natOfDigits ds, ['t', 'b'])
    else if ([ 'm', 'b'] : List Char).isPrefixOf r then some (natOfDigits ds, ['m', 'b'])
    else none

/-- Anchored matcher for RAM_PATTERN /(\d+)\s*(gb|mb)\s*ram/i. -/
def ramMatchAt (l : List Char) : Option ℕ :=
  let ds := takeDigits l
  if ds.isEmpty then none
  else
    let r := (l.drop ds.length).dropWhile isWSChar
    if ([ 'g', 'b'] : List Char).isPrefixOf r || ([ 'm', 'b'] : List Char).isPrefixOf r then
      if ([ 'r', 'a', 'm'] : List Char).isPrefixOf ((r.drop 2).dropWhile isWSChar) then
        some (natOfDigits ds)
      else none
    else none

/-- Anchored matcher for PRICE_K_PATTERN /(\d+)\s*k\b/i: digit run, optional
whitespace, the letter k, then a word boundary. -/
def kMatchAt (l : List Char) : Option ℕ :=
  let ds := takeDigits l
  if ds.isEmpty then none
  else
    match (l.drop ds.length).dropWhile isWSChar with
    | 'k' :: rest => if noWordAt rest then some (natOfDigits ds) else none
    | _ => none

/-- The optional qualifier alternatives of PRICE_PATTERN, in alternation
order: under|below|less than|upto|up to|within. -/
def priceQualAlts : List (List Char) :=
  ["under".data, "below".data, "less than".data, "upto".data,
   "up to".data, "within".data]

/-- Anchored matcher for PRICE_PATTERN
/(?:under|below|less than|upto|up to|within)?\s*[₹]?\s*(\d+)\s*k?\s*(?:rupee|rs|inr)?/i:
the optional qualifier is tried first (backtracking to the empty qualifier
when no digits follow it), then whitespace, an optional rupee sign, more
whitespace, and the captured digit run.  The trailing optional parts cannot
affect the captured value. -/
def genericPriceAt (l : List Char) : Option ℕ :=
  let tryFrom : List Char → Option ℕ := fun r =>
    let r1 := r.dropWhile isWSChar
    let r2 := match r1 with
      | '₹' :: t => t.dropWhile isWSChar
      | _ => r1
    let ds := takeDigits r2
    if ds.isEmpty then none else some (natOfDigits ds)
  match priceQualAlts.find? (fun w => w.isPrefixOf l) with
  | some w =>
    match tryFrom (l.drop w.length) with
    | some v => some v
    | none => tryFrom l
  | none => tryFrom l

/-- The qualifier presence test /under|below|less|upto|within/.test(q) used
to decide between a price ceiling and a ±30% band (note: plain substring
containment, and the alternatives differ from those of PRICE_PATTERN). -/
def priceQualifierTest (q : List Char) : Bool :=
  (["under", "below", "less", "upto", "within"] : List String).any
    (fun s => strContains q s.data)

/-- Structured result of query parsing, as documented on parseQuery. -/
structure ParsedQuery where
  normalised : String
  tokens : List String
  intent : Intent
  brand : Option String
  color : Option String
  storageGB : Option ℚ
  ramGB : Option ℚ
  maxPrice : Option ℚ
  minPrice : Option ℚ
  priceExplicit : Bool
deriving DecidableEq, Repr

/-- Steps 3-9 of parseQuery, applied to the substituted query string q
(the source keeps using q for extraction and q.trim() for tokenisation). -/
def parseNormalized (q : List Char) : ParsedQuery :=
  let normalised := trimChars q
  let intent := extractIntent q
  let brand := BRANDS.find? (fun b => strContains q (b.data.map Char.toLower))
  let color := COLOR_KEYWORDS.find? (fun c => strContains q c.data)
  let storageGB : Option ℚ :=
    match scanSuffixes storageMatchAt q with
    | some vu => some (if vu.2 = ['t', 'b'] then (vu.1 : ℚ) * 1024 else (vu.1 : ℚ))
    | none => if intent.moreStorage then some 256 else none
  let ramGB : Option ℚ := (scanSuffixes ramMatchAt q).map (fun v => (v : ℚ))
  let qual := priceQualifierTest q
  let priceTriple : Option ℚ × Option ℚ × Bool :=
    match scanSuffixes kMatchAt q with
    | some d =>
      let val : ℚ := (d : ℚ) * 1000
      if qual then (some val, none, true)
      else (some (jsRound (val * 1.3)), some (jsRound (val * 0.7)), true)
    | none =>
      match scanSuffixes genericPriceAt q with
      | some v =>
        if 100 < v then
          if qual then (some ((v : ℚ)), none, true)
          else (some (jsRound ((v : ℚ) * 1.3)), some (jsRound ((v : ℚ) * 0.7)), true)
        else (none, none, false)
      | none => (none, none, false)
  let tokens := (((splitWs normalised).map (fun w => w.filter isTokenChar)).filter
    (fun t => 1 < t.length && !(STOPWORDS.contains (String.mk t)))).map
    (fun t => String.mk t)
  { normalised := String.mk normalised
    tokens := tokens
    intent := intent
    brand := brand
    color := color
    storageGB := storageGB
    ramGB := ramGB
    maxPrice := priceTriple.1
    minPrice := priceTriple.2.1
    priceExplicit := priceTriple.2.2 }

/-- parseQuery from src/utils/queryParser.js: normalisation followed by
intent/entity/price extraction.  The missing-argument case (rawQuery || "")
is modelled by an Option argument. -/
def parseQuery (rawQuery : Option String) : ParsedQuery :=
  parseNormalized (normalizeQuery rawQuery)

/-- A candidate product as the ranker sees it: a plain object whose fields
may all be absent.  Numeric fields are rationals, metadata is a key/value
map (plain object or Map in the source, both read through the same chain). -/
structure Product where
  _id : Option String
  id : Option String
  title : Option String
  description : Option String
  brand : Option String
  model : Option String
  color : Option String
  fulfillmentType : Option String
  searchTags : Option (List String)
  metadata : Option (List (String × String))
  price : Option ℚ
  discountPercent : Option ℚ
  rating : Option ℚ
  reviewCount : Option ℚ
  returnRate : Option ℚ
  complaintRate : Option ℚ
  stock : Option ℚ
  unitsSold : Option ℚ
  salesVelocity : Option ℚ
  viewCount : Option ℚ
  launchYear : Option ℚ
deriving DecidableEq, Repr

/-- The fixed component weights of the ranking score. -/
structure Weights where
  textRelevance : ℚ
  quality : ℚ
  popularity : ℚ
  stock : ℚ
  commercial : ℚ
  intentBonus : ℚ

/-- WEIGHTS from the RankingService. -/
def WEIGHTS : Weights :=
  { textRelevance := 0.30, quality := 0.22, popularity := 0.18,
    stock := 0.08, commercial := 0.10, intentBonus := 0.12 }

/-- Clamp to [0, 1]. -/
def clamp (v : ℚ) : ℚ := max 0 (min 1 v)

/-- Log-normalisation of large counters; log1p is the abstracted Math.log1p. -/
def logNorm (log1p : ℚ → ℚ) (v base : ℚ) : ℚ :=
  if v ≤ 0 then 0 else clamp (log1p v / log1p base)

/-- The key under which a product is looked up in the fuzzy-score map:
product._id || product.id. -/
def fuseKey (p : Product) : Option String := jsOrS p._id p.id

/-- Inverted Fuse dissimilarity for a product:
fuseScoreMap.has(key) ? 1 - (fuseScoreMap.get(key) || 0) : 0. -/
def fuseScoreOf (p : Product) (fm : String → Option ℚ) : ℚ :=
  match (fuseKey p).bind fm with
  | some s => 1 - s
  | none => 0

/-- computeTextRelevance from the RankingService. -/
def computeTextRelevance (p : Product) (pq : ParsedQuery) (fm : String → Option ℚ) : ℚ :=
  let fuseScore := fuseScoreOf p fm
  let haystack := (String.intercalate " "
    ([jsStr p.title, jsStr p.brand, jsStr p.description] ++ p.searchTags.getD []
      ++ [jsStr p.model])).data.map Char.toLower
  let tokens := pq.tokens
  let matchedTokens := (tokens.filter (fun t => strContains haystack t.data)).length
  let tokenOverlap : ℚ :=
    if 0 < tokens.length then (matchedTokens : ℚ) / (tokens.length : ℚ) else 0
  let titleStartsWithBonus : ℚ :=
    match p.title with
    | some t =>
      if (jsStr pq.tokens.head?).data.isPrefixOf (t.data.map Char.toLower) then 0.15 else 0
    | none => 0
  clamp (fuseScore * 0.6 + tokenOverlap * 0.35 + titleStartsWithBonus)

/-- computeQualityScore from the RankingService: Bayesian-shrunk rating
(prior mean 3.5, prior strength 50) combined with trust rates. -/
def computeQualityScore (p : Product) : ℚ :=
  let rating := jsOrQ p.rating 0
  let reviews := jsOrQ p.reviewCount 0
  let returnRate := p.returnRate.getD 5
  let complaintRate := p.complaintRate.getD 2
  let GLOBAL_MEAN : ℚ := 3.5
  let CONFIDENCE_PRIOR : ℚ := 50
  let adjustedRating :=
    (CONFIDENCE_PRIOR * GLOBAL_MEAN + rating * reviews) / (CONFIDENCE_PRIOR + reviews)
  let ratingScore := adjustedRating / 5
  let returnScore := clamp (1 - returnRate / 100)
  let complaintScore := clamp (1 - complaintRate / 100)
  clamp (ratingScore * 0.6 + returnScore * 0.25 + complaintScore * 0.15)

/-- computePopularityScore from the RankingService. -/
def computePopularityScore (log1p : ℚ → ℚ) (p : Product) : ℚ :=
  let soldScore := logNorm log1p (jsOrQ p.unitsSold 0) 50000
  let velocityScore := logNorm log1p (jsOrQ p.salesVelocity 0) 2000
  let viewScore := logNorm log1p (jsOrQ p.viewCount 0) 100000
  clamp (soldScore * 0.5 + velocityScore * 0.35 + viewScore * 0.15)

/-- computeStockScore from the RankingService: 0 when stock is missing or 0
(the guard !product.stock || product.stock === 0), otherwise a tier level
plus an express-fulfillment bonus, clamped. -/
def computeStockScore (p : Product) : ℚ :=
  match p.stock with
  | none => 0
  | some v =>
    if v = 0 then 0
    else
      let fulfillmentBonus : ℚ := if p.fulfillmentType = some "express" then 0.15 else 0
      let stockLevel : ℚ := if 50 ≤ v then 1 else if 10 ≤ v then 0.75 else 0.5
      clamp (stockLevel + fulfillmentBonus)

/-- computeCommercialScore from the RankingService. -/
def computeCommercialScore (log1p : ℚ → ℚ) (p : Product) : ℚ :=
  clamp (log1p (jsOrQ p.discountPercent 0) / log1p 70)

/-- Metadata read through the chain
meta?.key || meta?.get?.(key) || dflt (both access styles reach the same
map here, and an empty-string value is falsy and falls through). -/
def metaGetD (p : Product) (key dflt : String) : String :=
  match p.metadata with
  | some m =>
    match m.lookup key with
    | some s => if s = "" then dflt else s
    | none => dflt
  | none => dflt

/-- The accumulated intent bonus of computeIntentBonus before the final
clamp: the sum of the conditional branch contributions. -/
def intentBonusRaw (currentYear : ℚ) (p : Product) (pq : ParsedQuery) : ℚ :=
  let cheapBonus : ℚ :=
    if pq.intent.cheap then
      clamp (jsOrQ p.discountPercent 0 / 50) * 0.5 +
        (match p.price with
         | some v => if v < 20000 then (0.3 : ℚ) else if v < 40000 then 0.15 else 0
         | none => 0) * 0.5
    else 0
  let latestBonus : ℚ :=
    if pq.intent.latest then
      let year := jsOrQ p.launchYear 2020
      let freshnessScore := clamp ((year - 2018) / (currentYear - 2018))
      let modelNum := natOfDigits (firstDigitRun (jsStr p.title).data)
      freshnessScore * 0.8 + (if 15 ≤ modelNum then (0.1 : ℚ) else 0) +
        (if 16 ≤ modelNum then (0.1 : ℚ) else 0)
    else 0
  let bestBonus : ℚ :=
    if pq.intent.best then clamp ((jsOrQ p.rating 0 - 3) / 2) * 0.9 else 0
  let premiumBonus : ℚ :=
    if pq.intent.premium then
      let price := jsOrQ p.price 0
      if 80000 < price then (0.6 : ℚ)
      else if 50000 < price then 0.3
      else if 30000 < price then 0.1
      else 0
    else 0
  let storageBonus : ℚ :=
    if pq.intent.moreStorage && jsTruthyQ pq.storageGB then
      match jsParseInt (metaGetD p "storage" "0") with
      | some n => if pq.storageGB.getD 0 ≤ (n : ℚ) then 0.5 else 0
      | none => 0
    else 0
  let colorBonus : ℚ :=
    if jsTruthyS pq.color then
      let c := (pq.color.getD "").data
      let title := (jsStr p.title).data.map Char.toLower
      let productColor := (jsStr p.color).data.map Char.toLower
      let metaColor := metaGetD p "color" ""
      if strContains title c || strContains productColor c ||
          strContains (metaColor.data.map Char.toLower) c then 0.6 else 0
    else 0
  let ramBonus : ℚ :=
    if jsTruthyQ pq.ramGB then
      match jsParseInt (metaGetD p "ram" "0") with
      | some n => if pq.ramGB.getD 0 ≤ (n : ℚ) then 0.3 else 0
      | none => 0
    else 0
  let priceRangeBonus : ℚ :=
    if pq.priceExplicit then
      let price := jsOrQ p.price 0
      let inRange :=
        (match pq.maxPrice with
         | some m => if m = 0 then true else decide (price ≤ m)
         | none => true) &&
        (match pq.minPrice with
         | some m => if m = 0 then true else decide (m ≤ price)
         | none => true)
      if inRange then 0.4 else -0.8
    else 0
  cheapBonus + latestBonus + bestBonus + premiumBonus + storageBonus + colorBonus +
    ramBonus + priceRangeBonus

/-- computeIntentBonus from the RankingService: the accumulated conditional
bonuses, clamped to [0, 1] on return. -/
def computeIntentBonus (currentYear : ℚ) (p : Product) (pq : ParsedQuery) : ℚ :=
  clamp (intentBonusRaw currentYear p pq)

/-- outOfStockPenalty from the RankingService: strict equality with the
number 0 (a missing stock field does not trigger the penalty). -/
def outOfStockPenalty (p : Product) : ℚ :=
  if p.stock = some 0 then 0.5 else 1.0

/-- The _scores breakdown attached to every ranked product (the source
rounds each sub-score to 3 decimals and the final score to 4 via toFixed). -/
structure ScoreBreakdown where
  text : ℚ
  quality : ℚ
  popularity : ℚ
  stock : ℚ
  commercial : ℚ
  intent : ℚ
  final : ℚ
deriving DecidableEq, Repr

/-- A candidate together with its attached score breakdown ({...product,
_scores} in the source). -/
structure ScoredProduct where
  product : Product
  scores : ScoreBreakdown
deriving DecidableEq, Repr

/-- The per-candidate body of rankProducts: the six sub-scores, the weighted
raw score and the penalised final score. -/
def scoreProduct (log1p : ℚ → ℚ) (currentYear : ℚ) (pq : ParsedQuery)
    (fm : String → Option ℚ) (p : Product) : ScoredProduct :=
  let textScore := computeTextRelevance p pq fm
  let qualityScore := computeQualityScore p
  let popularityScore := computePopularityScore log1p p
  let stockScore := computeStockScore p
  let commercialScore := computeCommercialScore log1p p
  let intentScore := computeIntentBonus currentYear p pq
  let rawScore :=
    textScore * WEIGHTS.textRelevance +
    qualityScore * WEIGHTS.quality +
    popularityScore * WEIGHTS.popularity +
    stockScore * WEIGHTS.stock +
    commercialScore * WEIGHTS.commercial +
    intentScore * WEIGHTS.intentBonus
  let finalScore := rawScore * outOfStockPenalty p
  { product := p
    scores :=
      { text := toFixedQ 3 textScore
        quality := toFixedQ 3 qualityScore
        popularity := toFixedQ 3 popularityScore
        stock := toFixedQ 3 stockScore
        commercial := toFixedQ 3 commercialScore
        intent := toFixedQ 3 intentScore
        final := toFixedQ 4 finalScore } }

/-- rankProducts from the RankingService: score every candidate, then sort
descending by final score.  Array.prototype.sort with the comparator
(a, b) => b._scores.final - a._scores.final is a stable sort whose result
is the unique stably descending-sorted permutation, modelled by the stable
List.mergeSort under the total preorder b.final ≤ a.final. -/
def rankProducts (log1p : ℚ → ℚ) (currentYear : ℚ) (candidates : List Product)
    (pq : ParsedQuery) (fm : String → Option ℚ) : List ScoredProduct :=
  ((candidates.map (scoreProduct log1p currentYear pq fm)).mergeSort
    (fun a b => decide (b.scores.final ≤ a.scores.final)))

/-! Basic bounds for the clamping and rounding helpers. -/

theorem clamp_nonneg (v : ℚ) : 0 ≤ clamp v := le_max_left 0 _

theorem clamp_le_one (v : ℚ) : clamp v ≤ 1 :=
  max_le (by norm_num) (min_le_left 1 v)

theorem clamp_eq_self {v : ℚ} (h0 : 0 ≤ v) (h1 : v ≤ 1) : clamp v = v := by
  unfold clamp
  rw [min_eq_right h1, max_eq_right h0]

theorem toFixedQ_nonneg {d : ℕ} {x : ℚ} (h : 0 ≤ x) : 0 ≤ toFixedQ d x := by
  unfold toFixedQ
  have hp : (0 : ℚ) < 10 ^ d := by positivity
  apply div_nonneg _ (le_of_lt hp)
  have hx : (0 : ℚ) ≤ x * 10 ^ d + 1/2 := by nlinarith
  exact_mod_cast Int.floor_nonneg.mpr hx

theorem toFixedQ_le_one {d : ℕ} {x : ℚ} (h : x ≤ 1) : toFixedQ d x ≤ 1 := by
  unfold toFixedQ
  have hp : (0 : ℚ) < 10 ^ d := by positivity
  rw [div_le_one hp]
  have h3 : x * 10 ^ d + 1/2 ≤ ((10 ^ d : ℤ) : ℚ) + 1/2 := by push_cast; nlinarith
  have h4 : ⌊x * 10 ^ d + 1/2⌋ ≤ (10 ^ d : ℤ) := by
    calc ⌊x * 10 ^ d + 1/2⌋ ≤ ⌊((10 ^ d : ℤ) : ℚ) + 1/2⌋ := Int.floor_le_floor h3
      _ = 10 ^ d + ⌊(1/2 : ℚ)⌋ := Int.floor_int_add _ _
      _ = 10 ^ d := by norm_num
  calc ((⌊x * 10 ^ d + 1/2⌋ : ℤ) : ℚ) ≤ ((10 ^ d : ℤ) : ℚ) := by exact_mod_cast h4
    _ = 10 ^ d := by push_cast; ring

/-! Bounds for the individual sub-scores. -/

theorem computeTextRelevance_bounds (p : Product) (pq : ParsedQuery)
    (fm : String → Option ℚ) :
    0 ≤ computeTextRelevance p pq fm ∧ computeTextRelevance p pq fm ≤ 1 := by
  simp only [computeTextRelevance]
  exact ⟨clamp_nonneg _, clamp_le_one _⟩

theorem computeQualityScore_bounds (p : Product) :
    0 ≤ computeQualityScore p ∧ computeQualityScore p ≤ 1 := by
  simp only [computeQualityScore]
  exact ⟨clamp_nonneg _, clamp_le_one _⟩

theorem computePopularityScore_bounds (log1p : ℚ → ℚ) (p : Product) :
    0 ≤ computePopularityScore log1p p ∧ computePopularityScore log1p p ≤ 1 := by
  simp only [computePopularityScore]
  exact ⟨clamp_nonneg _, clamp_le_one _⟩

theorem computeCommercialScore_bounds (log1p : ℚ → ℚ) (p : Product) :
    0 ≤ computeCommercialScore log1p p ∧ computeCommercialScore log1p p ≤ 1 := by
  simp only [computeCommercialScore]
  exact ⟨clamp_nonneg _, clamp_le_one _⟩

theorem computeIntentBonus_bounds (y : ℚ) (p : Product) (pq : ParsedQuery) :
    0 ≤ computeIntentBonus y p pq ∧ computeIntentBonus y p pq ≤ 1 := by
  simp only [computeIntentBonus]
  exact ⟨clamp_nonneg _, clamp_le_one _⟩

theorem computeStockScore_bounds (p : Product) :
    0 ≤ computeStockScore p ∧ computeStockScore p ≤ 1 := by
  unfold computeStockScore
  rcases p.stock with _ | v
  · norm_num
  · by_cases hv : v = 0
    · simp [hv]
    · simp only [hv, if_false]
      exact ⟨clamp_nonneg _, clamp_le_one _⟩

theorem outOfStockPenalty_bounds (p : Product) :
    0 ≤ outOfStockPenalty p ∧ outOfStockPenalty p ≤ 1 := by
  unfold outOfStockPenalty
  split_ifs <;> norm_num

/-! Fixtures used by the concrete witnesses. -/

/-- A candidate record with every field absent. -/
def emptyProduct : Product where
  _id := none
  id := none
  title := none
  description := none
  brand := none
  model := none
  color := none
  fulfillmentType := none
  searchTags := none
  metadata := none
  price := none
  discountPercent := none
  rating := none
  reviewCount := none
  returnRate := none
  complaintRate := none
  stock := none
  unitsSold := none
  salesVelocity := none
  viewCount := none
  launchYear := none

/-- All six intent flags off. -/
def quietIntent : Intent :=
  { cheap := false, latest := false, best := false, premium := false,
    moreStorage := false, strong := false }

/-- A parsed query with an explicit price ceiling of 50000 and nothing else. -/
def ceiling50kQuery : ParsedQuery :=
  { normalised := "", tokens := [], intent := quietIntent, brand := none,
    color := none, storageGB := none, ramGB := none,
    maxPrice := some 50000, minPrice := none, priceExplicit := true }

/-- C2: with priceExplicit = true, maxPrice = 50000 and no other intent
signals, a candidate priced 60000 gets intent bonus exactly 0 (the −0.8
out-of-range penalty is floored by the final clamp), while a candidate
priced 40000 accumulates exactly the +0.4 in-range reward before clamping,
which the clamp then returns unchanged. -/
theorem computeIntentBonus_price_range_cases (y : ℚ) (pq : ParsedQuery)
    (p60 p40 : Product)
    (hintent : pq.intent = quietIntent)
    (hcolor : pq.color = none) (hstorage : pq.storageGB = none)
    (hram : pq.ramGB = none) (hexp : pq.priceExplicit = true)
    (hmax : pq.maxPrice = some 50000) (hmin : pq.minPrice = none)
    (hp60 : p60.price = some 60000) (hp40 : p40.price = some 40000) :
    computeIntentBonus y p60 pq = 0 ∧
    intentBonusRaw y p40 pq = 0.4 ∧
    computeIntentBonus y p40 pq = 0.4 := by
  have hraw60 : intentBonusRaw y p60 pq = -0.8 := by
    simp only [intentBonusRaw, hintent, hcolor, hstorage, hram, hexp, hmax, hmin,
      hp60, quietIntent, jsTruthyQ, jsTruthyS, jsOrQ]
    norm_num
  have hraw40 : intentBonusRaw y p40 pq = 0.4 := by
    simp only [intentBonusRaw, hintent, hcolor, hstorage, hram, hexp, hmax, hmin,
      hp40, quietIntent, jsTruthyQ, jsTruthyS, jsOrQ]
    norm_num
  refine ⟨?_, hraw40, ?_⟩
  · simp only [computeIntentBonus, hraw60]
    unfold clamp
    norm_num
  · simp only [computeIntentBonus, hraw40]
    rw [clamp_eq_self (by norm_num) (by norm_num)]

/-- Witness for C2 at a concrete query and concrete candidates. -/
theorem computeIntentBonus_price_range_cases_witness :
    computeIntentBonus 2025
      { emptyProduct with price := some 60000 } ceiling50kQuery = 0 ∧
    intentBonusRaw 2025
      { emptyProduct with price := some 40000 } ceiling50kQuery = 0.4 ∧
    computeIntentBonus 2025
      { emptyProduct with price := some 40000 } ceiling50kQuery = 0.4 :=
  computeIntentBonus_price_range_cases 2025 ceiling50kQuery
    { emptyProduct with price := some 60000 }
    { emptyProduct with price := some 40000 }
    rfl rfl rfl rfl rfl rfl rfl rfl rfl

/-- C5 counterexample: a product whose stock field is absent has stock
sub-score 0, yet its out-of-stock penalty factor is 1, not the 0.5 the
claim asserts for a missing stock field (the source tests stock === 0,
which a missing field does not satisfy). -/
theorem outOfStockPenalty_missing_stock :
    emptyProduct.stock = none ∧
    computeStockScore emptyProduct = 0 ∧
    outOfStockPenalty emptyProduct ≠ 0.5 ∧
    outOfStockPenalty emptyProduct = 1 := by
  refine ⟨rfl, rfl, ?_, ?_⟩ <;> simp [outOfStockPenalty, emptyProduct] <;> norm_num

/-- C5 amended: missing stock and stock = 0 both give stock sub-score 0,
but the global 0.5 penalty applies exactly when the stock field is present
and equal to 0; a missing stock field gets penalty factor 1. -/
theorem stockScore_and_penalty_defaults (p : Product) :
    ((p.stock = none ∨ p.stock = some 0) → computeStockScore p = 0) ∧
    outOfStockPenalty p = (if p.stock = some 0 then 0.5 else 1) := by
  constructor
  · rintro (h | h) <;> simp [computeStockScore, h]
  · unfold outOfStockPenalty
    split_ifs <;> norm_num

/-- Witness for the amended C5 at a concrete stockless product. -/
theorem stockScore_and_penalty_defaults_witness :
    computeStockScore emptyProduct = 0 ∧
    outOfStockPenalty emptyProduct = (if emptyProduct.stock = some 0 then 0.5 else 1) :=
  ⟨(stockScore_and_penalty_defaults emptyProduct).1 (Or.inl rfl),
    (stockScore_and_penalty_defaults emptyProduct).2⟩

/-- C6: Bayesian shrinkage — between two candidates that agree on the trust
rates, one rated 5.0 with a single review scores strictly below one rated
4.5 with 5000 reviews (prior mean 3.5, prior strength 50 reviews). -/
theorem computeQualityScore_bayesian_shrinkage (p q : Product)
    (hpr : p.rating = some 5) (hpc : p.reviewCount = some 1)
    (hqr : q.rating = some 4.5) (hqc : q.reviewCount = some 5000)
    (hret : p.returnRate = q.returnRate)
    (hcomp : p.complaintRate = q.complaintRate) :
    computeQualityScore p < computeQualityScore q := by
  simp only [computeQualityScore, hpr, hpc, hqr, hqc, hret, hcomp, jsOrQ]
  norm_num
  set rs := clamp (1 - q.returnRate.getD 5 / 100) with hrs
  set cs := clamp (1 - q.complaintRate.getD 2 / 100) with hcs
  have h1 : (0:ℚ) ≤ rs := by rw [hrs]; exact clamp_nonneg _
  have h2 : rs ≤ 1 := by rw [hrs]; exact clamp_le_one _
  have h3 : (0:ℚ) ≤ cs := by rw [hcs]; exact clamp_nonneg _
  have h4 : cs ≤ 1 := by rw [hcs]; exact clamp_le_one _
  rw [clamp_eq_self (by nlinarith) (by nlinarith),
    clamp_eq_self (by nlinarith) (by nlinarith)]
  nlinarith

/-- Witness for C6 at two concrete candidates. -/
theorem computeQualityScore_bayesian_shrinkage_witness :
    computeQualityScore { emptyProduct with rating := some 5, reviewCount := some 1 } <
    computeQualityScore { emptyProduct with rating := some 4.5, reviewCount := some 5000 } :=
  computeQualityScore_bayesian_shrinkage
    { emptyProduct with rating := some 5, reviewCount := some 1 }
    { emptyProduct with rating := some 4.5, reviewCount := some 5000 }
    rfl rfl rfl rfl rfl rfl

/-- C10: with an empty token list, a missing fuzzy score and a present
(string) title, the title-starts-with test compares against the empty
string, which always succeeds, so the text sub-score is exactly the 0.15
bonus rather than 0. -/
theorem computeTextRelevance_empty_tokens_bonus (p : Product) (pq : ParsedQuery)
    (fm : String → Option ℚ) (t : String)
    (htitle : p.title = some t) (htok : pq.tokens = [])
    (hfz : (fuseKey p).bind fm = none) :
    computeTextRelevance p pq fm = 0.15 := by
  simp only [computeTextRelevance, fuseScoreOf, hfz, htok, htitle, jsStr,
    List.head?_nil, Option.getD_none, List.length_nil, lt_irrefl, if_false,
    List.isPrefixOf, if_true]
  norm_num [clamp]

/-- Witness for C10 at a concrete titled product and empty query. -/
theorem computeTextRelevance_empty_tokens_bonus_witness :
    computeTextRelevance { emptyProduct with title := some "iPhone 16" }
      { normalised := "", tokens := [], intent := quietIntent, brand := none,
        color := none, storageGB := none, ramGB := none,
        maxPrice := none, minPrice := none, priceExplicit := false }
      (fun _ => none) = 0.15 :=
  computeTextRelevance_empty_tokens_bonus
    { emptyProduct with title := some "iPhone 16" } _ (fun _ => none) "iPhone 16"
    rfl rfl rfl

/-! Projection equations for the attached score breakdown. -/

theorem scoreProduct_text (log1p : ℚ → ℚ) (y : ℚ) (pq : ParsedQuery)
    (fm : String → Option ℚ) (p : Product) :
    (scoreProduct log1p y pq fm p).scores.text =
      toFixedQ 3 (computeTextRelevance p pq fm) := rfl

theorem scoreProduct_quality (log1p : ℚ → ℚ) (y : ℚ) (pq : ParsedQuery)
    (fm : String → Option ℚ) (p : Product) :
    (scoreProduct log1p y pq fm p).scores.quality =
      toFixedQ 3 (computeQualityScore p) := rfl

theorem scoreProduct_popularity (log1p : ℚ → ℚ) (y : ℚ) (pq : ParsedQuery)
    (fm : String → Option ℚ) (p : Product) :
    (scoreProduct log1p y pq fm p).scores.popularity =
      toFixedQ 3 (computePopularityScore log1p p) := rfl

theorem scoreProduct_stock (log1p : ℚ → ℚ) (y : ℚ) (pq : ParsedQuery)
    (fm : String → Option ℚ) (p : Product) :
    (scoreProduct log1p y pq fm p).scores.stock =
      toFixedQ 3 (computeStockScore p) := rfl

theorem scoreProduct_commercial (log1p : ℚ → ℚ) (y : ℚ) (pq : ParsedQuery)
    (fm : String → Option ℚ) (p : Product) :
    (scoreProduct log1p y pq fm p).scores.commercial =
      toFixedQ 3 (computeCommercialScore log1p p) := rfl

theorem scoreProduct_intent (log1p : ℚ → ℚ) (y : ℚ) (pq : ParsedQuery)
    (fm : String → Option ℚ) (p : Product) :
    (scoreProduct log1p y pq fm p).scores.intent =
      toFixedQ 3 (computeIntentBonus y p pq) := rfl

theorem scoreProduct_final (log1p : ℚ → ℚ) (y : ℚ) (pq : ParsedQuery)
    (fm : String → Option ℚ) (p : Product) :
    (scoreProduct log1p y pq fm p).scores.final =
      toFixedQ 4
        ((computeTextRelevance p pq fm * WEIGHTS.textRelevance +
          computeQualityScore p * WEIGHTS.quality +
          computePopularityScore log1p p * WEIGHTS.popularity +
          computeStockScore p * WEIGHTS.stock +
          computeCommercialScore log1p p * WEIGHTS.commercial +
          computeIntentBonus y p pq * WEIGHTS.intentBonus) *
          outOfStockPenalty p) := rfl

/-- C1: every sub-score attached by rankProducts lies in [0, 1], and so
does the final score (weighted sum of the six, times the out-of-stock
penalty factor), for every candidate, parsed query and fuzzy-score map. -/
theorem rankProducts_scores_in_unit_interval (log1p : ℚ → ℚ) (y : ℚ)
    (candidates : List Product) (pq : ParsedQuery) (fm : String → Option ℚ)
    (s : ScoredProduct) (hs : s ∈ rankProducts log1p y candidates pq fm) :
    (0 ≤ s.scores.text ∧ s.scores.text ≤ 1) ∧
    (0 ≤ s.scores.quality ∧ s.scores.quality ≤ 1) ∧
    (0 ≤ s.scores.popularity ∧ s.scores.popularity ≤ 1) ∧
    (0 ≤ s.scores.stock ∧ s.scores.stock ≤ 1) ∧
    (0 ≤ s.scores.commercial ∧ s.scores.commercial ≤ 1) ∧
    (0 ≤ s.scores.intent ∧ s.scores.intent ≤ 1) ∧
    (0 ≤ s.scores.final ∧ s.scores.final ≤ 1) := by
  rw [rankProducts, List.mem_mergeSort, List.mem_map] at hs
  obtain ⟨p, hp, rfl⟩ := hs
  obtain ⟨ht0, ht1⟩ := computeTextRelevance_bounds p pq fm
  obtain ⟨hq0, hq1⟩ := computeQualityScore_bounds p
  obtain ⟨hpo0, hpo1⟩ := computePopularityScore_bounds log1p p
  obtain ⟨hst0, hst1⟩ := computeStockScore_bounds p
  obtain ⟨hc0, hc1⟩ := computeCommercialScore_bounds log1p p
  obtain ⟨hi0, hi1⟩ := computeIntentBonus_bounds y p pq
  obtain ⟨hpe0, hpe1⟩ := outOfStockPenalty_bounds p
  have hraw0 : 0 ≤
      computeTextRelevance p pq fm * WEIGHTS.textRelevance +
      computeQualityScore p * WEIGHTS.quality +
      computePopularityScore log1p p * WEIGHTS.popularity +
      computeStockScore p * WEIGHTS.stock +
      computeCommercialScore log1p p * WEIGHTS.commercial +
      computeIntentBonus y p pq * WEIGHTS.intentBonus := by
    simp only [WEIGHTS]
    linarith
  have hraw1 :
      computeTextRelevance p pq fm * WEIGHTS.textRelevance +
      computeQualityScore p * WEIGHTS.quality +
      computePopularityScore log1p p * WEIGHTS.popularity +
      computeStockScore p * WEIGHTS.stock +
      computeCommercialScore log1p p * WEIGHTS.commercial +
      computeIntentBonus y p pq * WEIGHTS.intentBonus ≤ 1 := by
    simp only [WEIGHTS]
    linarith
  refine ⟨?_, ?_, ?_, ?_, ?_, ?_, ?_⟩
  · rw [scoreProduct_text]
    exact ⟨toFixedQ_nonneg ht0, toFixedQ_le_one ht1⟩
  · rw [scoreProduct_quality]
    exact ⟨toFixedQ_nonneg hq0, toFixedQ_le_one hq1⟩
  · rw [scoreProduct_popularity]
    exact ⟨toFixedQ_nonneg hpo0, toFixedQ_le_one hpo1⟩
  · rw [scoreProduct_stock]
    exact ⟨toFixedQ_nonneg hst0, toFixedQ_le_one hst1⟩
  · rw [scoreProduct_commercial]
    exact ⟨toFixedQ_nonneg hc0, toFixedQ_le_one hc1⟩
  · rw [scoreProduct_intent]
    exact ⟨toFixedQ_nonneg hi0, toFixedQ_le_one hi1⟩
  · rw [scoreProduct_final]
    constructor
    · exact toFixedQ_nonneg (mul_nonneg hraw0 hpe0)
    · refine toFixedQ_le_one ?_
      nlinarith

/-- A concrete ranked element for the C1 witness. -/
def sWitC1 : ScoredProduct :=
  scoreProduct (fun x => x) 2025 ceiling50kQuery (fun _ => none) emptyProduct

/-- Witness for C1 on a concrete single-candidate ranking. -/
theorem rankProducts_scores_in_unit_interval_witness :
    (0 ≤ sWitC1.scores.text ∧ sWitC1.scores.text ≤ 1) ∧
    (0 ≤ sWitC1.scores.quality ∧ sWitC1.scores.quality ≤ 1) ∧
    (0 ≤ sWitC1.scores.popularity ∧ sWitC1.scores.popularity ≤ 1) ∧
    (0 ≤ sWitC1.scores.stock ∧ sWitC1.scores.stock ≤ 1) ∧
    (0 ≤ sWitC1.scores.commercial ∧ sWitC1.scores.commercial ≤ 1) ∧
    (0 ≤ sWitC1.scores.intent ∧ sWitC1.scores.intent ≤ 1) ∧
    (0 ≤ sWitC1.scores.final ∧ sWitC1.scores.final ≤ 1) :=
  rankProducts_scores_in_unit_interval (fun x => x) 2025 [emptyProduct]
    ceiling50kQuery (fun _ => none) sWitC1 (by simp [rankProducts, sWitC1])

/-- Stability of mergeSort under a descending rational key, phrased as
filter preservation: the sorted list restricted to any key value equals the
input restricted to that value, so equal-key elements keep their order. -/
theorem mergeSort_filter_key {α : Type} (key : α → ℚ) (l : List α) (v : ℚ) :
    ((l.mergeSort (fun a b => decide (key b ≤ key a))).filter
      (fun x => decide (key x = v))) =
    l.filter (fun x => decide (key x = v)) := by
  have htr : ∀ (a b c : α),
      decide (key b ≤ key a) = true → decide (key c ≤ key b) = true →
      decide (key c ≤ key a) = true := by
    intro a b c hab hbc
    simp only [decide_eq_true_eq] at *
    exact le_trans hbc hab
  have hto : ∀ (a b : α),
      (decide (key b ≤ key a) || decide (key a ≤ key b)) = true := by
    intro a b
    simpa only [Bool.or_eq_true, decide_eq_true_eq] using le_total (key b) (key a)
  have hc : (l.filter (fun x => decide (key x = v))).Pairwise
      (fun a b => decide (key b ≤ key a) = true) := by
    apply List.pairwise_of_forall_mem_list
    intro a ha b hb
    have ha2 := (List.mem_filter.mp ha).2
    have hb2 := (List.mem_filter.mp hb).2
    simp only [decide_eq_true_eq] at ha2 hb2 ⊢
    rw [ha2, hb2]
  have hsub : List.Sublist (l.filter (fun x => decide (key x = v)))
      (l.mergeSort (fun a b => decide (key b ≤ key a))) :=
    List.sublist_mergeSort htr hto hc (List.filter_sublist l)
  have h1 : List.Sublist (l.filter (fun x => decide (key x = v)))
      ((l.mergeSort (fun a b => decide (key b ≤ key a))).filter
        (fun x => decide (key x = v))) := by
    have h := hsub.filter (fun x => decide (key x = v))
    rwa [List.filter_filter, show
        (fun a => decide (key a = v) && decide (key a = v)) =
          (fun a => decide (key a = v)) by
        funext a
        exact Bool.and_self _] at h
  have h2 : ((l.mergeSort (fun a b => decide (key b ≤ key a))).filter
      (fun x => decide (key x = v))).length =
      (l.filter (fun x => decide (key x = v))).length :=
    ((List.mergeSort_perm l _).filter _).length_eq
  exact (h1.eq_of_length h2.symm).symm

/-- C7: rankProducts returns the scored candidates in descending order of
final score, and restricting the output to any final-score value gives
exactly the corresponding restriction of the scored input list, i.e. equal
scores keep their input order (stable sort). -/
theorem rankProducts_sorted_and_stable (log1p : ℚ → ℚ) (y : ℚ)
    (candidates : List Product) (pq : ParsedQuery) (fm : String → Option ℚ) :
    (rankProducts log1p y candidates pq fm).Pairwise
      (fun a b => b.scores.final ≤ a.scores.final) ∧
    ∀ v : ℚ,
      (rankProducts log1p y candidates pq fm).filter
        (fun s => decide (s.scores.final = v)) =
      (candidates.map (scoreProduct log1p y pq fm)).filter
        (fun s => decide (s.scores.final = v)) := by
  constructor
  · have htr : ∀ (a b c : ScoredProduct),
        decide (b.scores.final ≤ a.scores.final) = true →
        decide (c.scores.final ≤ b.scores.final) = true →
        decide (c.scores.final ≤ a.scores.final) = true := by
      intro a b c hab hbc
      simp only [decide_eq_true_eq] at *
      exact le_trans hbc hab
    have hto : ∀ (a b : ScoredProduct),
        (decide (b.scores.final ≤ a.scores.final) ||
          decide (a.scores.final ≤ b.scores.final)) = true := by
      intro a b
      simpa only [Bool.or_eq_true, decide_eq_true_eq] using
        le_total (b.scores.final) (a.scores.final)
    rw [rankProducts]
    exact (List.sorted_mergeSort htr hto _).imp (fun hx => of_decide_eq_true hx)
  · intro v
    rw [rankProducts]
    exact mergeSort_filter_key (fun s => s.scores.final)
      (candidates.map (scoreProduct log1p y pq fm)) v

/-- C3: on the exact query "ifone 16 under 70000" the parser corrects the
brand to "iphone" and sets no cheap intent, but the generic price pattern
finds its leftmost match at the bare "16" (which the ≤ 100 guard then
discards), so contrary to the specified scenario no price is extracted:
maxPrice stays null and priceExplicit stays false. -/
theorem parseQuery_ifone16_under70000 :
    (parseQuery (some "ifone 16 under 70000")).brand = some "iphone" ∧
    (parseQuery (some "ifone 16 under 70000")).intent.cheap = false ∧
    (parseQuery (some "ifone 16 under 70000")).maxPrice = none ∧
    (parseQuery (some "ifone 16 under 70000")).minPrice = none ∧
    (parseQuery (some "ifone 16 under 70000")).priceExplicit = false := by
  decide

/-- C8: the query "sasta wala iphone" is normalised by substituting the
whole two-word phrase "sasta wala" (longest match first), yielding
"cheap iphone" and not "cheap wala iphone". -/
theorem parseQuery_sasta_wala_longest_match :
    (parseQuery (some "sasta wala iphone")).normalised = "cheap iphone" := by
  decide

/-- C9: parseQuery is total by construction, and on a missing or empty
query it returns the all-default parse: empty normalised text and token
list, no intent flags, and no brand/color/storage/RAM/price constraints. -/
theorem parseQuery_empty_and_missing_defaults :
    parseQuery none = parseQuery (some "") ∧
    (parseQuery (some "")).normalised = "" ∧
    (parseQuery (some "")).tokens = [] ∧
    (parseQuery (some "")).intent = quietIntent ∧
    (parseQuery (some "")).brand = none ∧
    (parseQuery (some "")).color = none ∧
    (parseQuery (some "")).storageGB = none ∧
    (parseQuery (some "")).ramGB = none ∧
    (parseQuery (some "")).minPrice = none ∧
    (parseQuery (some "")).maxPrice = none ∧
    (parseQuery (some "")).priceExplicit = false := by
  decide

/-- The price fields produced by the extraction step, as a function of the
two pattern scans and the qualifier test (shared characterisation). -/
theorem parseNormalized_priceTriple (q : List Char) :
    ((parseNormalized q).maxPrice, (parseNormalized q).minPrice,
      (parseNormalized q).priceExplicit) =
    (match scanSuffixes kMatchAt q with
     | some d =>
       if priceQualifierTest q then (some ((d : ℚ) * 1000), none, true)
       else (some (jsRound ((d : ℚ) * 1000 * 1.3)),
         some (jsRound ((d : ℚ) * 1000 * 0.7)), true)
     | none =>
       match scanSuffixes genericPriceAt q with
       | some v =>
         if 100 < v then
           if priceQualifierTest q then (some ((v : ℚ)), none, true)
           else (some (jsRound ((v : ℚ) * 1.3)), some (jsRound ((v : ℚ) * 0.7)), true)
         else (none, none, false)
       | none => (none, none, false)) := by
  rcases hk : scanSuffixes kMatchAt q with _ | d
  · rcases hg : scanSuffixes genericPriceAt q with _ | v
    · simp only [parseNormalized, hk, hg]
    · by_cases h100 : 100 < v
      · by_cases hq : priceQualifierTest q = true
        · simp only [parseNormalized, hk, hg, h100, hq, if_true]
        · simp only [Bool.not_eq_true] at hq
          simp only [parseNormalized, hk, hg, h100, hq, if_true, Bool.false_eq_true,
            if_false]
      · simp only [parseNormalized, hk, hg, h100, if_false]
  · by_cases hq : priceQualifierTest q = true
    · simp only [parseNormalized, hk, hq, if_true]
    · simp only [Bool.not_eq_true] at hq
      simp only [parseNormalized, hk, hq, Bool.false_eq_true, if_false]

/-- C4 (amended): price extraction case analysis.  The k-shorthand scan
takes precedence whenever it matches anywhere in the query.  A value is
made a pure ceiling exactly when the qualifier test fires, and that test is
substring containment of under/below/less/upto/within — so "less than"
qualifies through "less", but "up to" written with a space does not and
falls into the approximate ±30% band (floor = round(0.7·v), ceiling =
round(1.3·v)).  Without a qualifier the same band applies, and a generic
bare number ≤ 100 is not treated as a price at all. -/
theorem parseNormalized_price_extraction (q : List Char) :
    (∀ d, scanSuffixes kMatchAt q = some d → priceQualifierTest q = true →
      (parseNormalized q).maxPrice = some ((d : ℚ) * 1000) ∧
      (parseNormalized q).minPrice = none ∧
      (parseNormalized q).priceExplicit = true) ∧
    (∀ d, scanSuffixes kMatchAt q = some d → priceQualifierTest q = false →
      (parseNormalized q).maxPrice = some (jsRound ((d : ℚ) * 1000 * 1.3)) ∧
      (parseNormalized q).minPrice = some (jsRound ((d : ℚ) * 1000 * 0.7)) ∧
      (parseNormalized q).priceExplicit = true) ∧
    (∀ v, scanSuffixes kMatchAt q = none → scanSuffixes genericPriceAt q = some v →
      100 < v → priceQualifierTest q = true →
      (parseNormalized q).maxPrice = some ((v : ℚ)) ∧
      (parseNormalized q).minPrice = none ∧
      (parseNormalized q).priceExplicit = true) ∧
    (∀ v, scanSuffixes kMatchAt q = none → scanSuffixes genericPriceAt q = some v →
      100 < v → priceQualifierTest q = false →
      (parseNormalized q).maxPrice = some (jsRound ((v : ℚ) * 1.3)) ∧
      (parseNormalized q).minPrice = some (jsRound ((v : ℚ) * 0.7)) ∧
      (parseNormalized q).priceExplicit = true) ∧
    (∀ v, scanSuffixes kMatchAt q = none → scanSuffixes genericPriceAt q = some v →
      v ≤ 100 →
      (parseNormalized q).maxPrice = none ∧
      (parseNormalized q).minPrice = none ∧
      (parseNormalized q).priceExplicit = false) := by
  have base := parseNormalized_priceTriple q
  refine ⟨?_, ?_, ?_, ?_, ?_⟩
  · intro d hk hq
    simp only [hk, hq, if_true, Prod.mk.injEq] at base
    exact base
  · intro d hk hq
    simp only [hk, hq, Bool.false_eq_true, if_false, Prod.mk.injEq] at base
    exact base
  · intro v hk hg h100 hq
    simp only [hk, hg, h100, hq, if_true, Prod.mk.injEq] at base
    exact base
  · intro v hk hg h100 hq
    simp only [hk, hg, h100, hq, if_true, Bool.false_eq_true, if_false,
      Prod.mk.injEq] at base
    exact base
  · intro v hk hg h100
    have h100x : ¬ (100 < v) := not_lt.mpr h100
    simp only [hk, hg, h100x, if_false, Prod.mk.injEq] at base
    exact base

/-- Witness for the amended C4 on the concrete query text "under 45000". -/
theorem parseNormalized_price_extraction_witness :
    (parseNormalized ("under 45000").data).maxPrice = some ((45000 : ℕ) : ℚ) ∧
    (parseNormalized ("under 45000").data).minPrice = none ∧
    (parseNormalized ("under 45000").data).priceExplicit = true :=
  (parseNormalized_price_extraction ("under 45000").data).2.2.1 45000
    (by decide) (by decide) (by decide) (by decide)

/-- C4 counterexample: in "up to 50k" the qualifier "up to" is present, and
the shorthand pattern extracts 50k, yet the result is the ±30% band
(35000–65000) rather than the ceiling maxPrice = 50000 the claim requires,
because the qualifier test only knows the spelling "upto" without a space. -/
theorem parseQuery_up_to_50k_band :
    (parseQuery (some "up to 50k")).priceExplicit = true ∧
    (parseQuery (some "up to 50k")).maxPrice ≠ some 50000 ∧
    (parseQuery (some "up to 50k")).maxPrice = some 65000 ∧
    (parseQuery (some "up to 50k")).minPrice = some 35000 := by
  have hk : scanSuffixes kMatchAt (normalizeQuery (some "up to 50k")) = some 50 := by
    decide
  have hq : priceQualifierTest (normalizeQuery (some "up to 50k")) = false := by
    decide
  have base := parseNormalized_priceTriple (normalizeQuery (some "up to 50k"))
  simp only [hk, hq, Bool.false_eq_true, if_false, Prod.mk.injEq] at base
  obtain ⟨h1, h2, h3⟩ := base
  have e1 : jsRound (((50 : ℕ) : ℚ) * 1000 * 1.3) = 65000 := by
    unfold jsRound
    rw [show ((50 : ℕ) : ℚ) * 1000 * 1.3 + 1/2 = 65000 + 1/2 by norm_num]
    norm_num
  have e2 : jsRound (((50 : ℕ) : ℚ) * 1000 * 0.7) = 35000 := by
    unfold jsRound
    rw [show ((50 : ℕ) : ℚ) * 1000 * 0.7 + 1/2 = 35000 + 1/2 by norm_num]
    norm_num
  rw [e1] at h1
  rw [e2] at h2
  show (parseNormalized (normalizeQuery (some "up to 50k"))).priceExplicit = true ∧ _
  refine ⟨h3, ?_, h1, h2⟩
  show (parseNormalized (normalizeQuery (some "up to 50k"))).maxPrice ≠ some 50000
  rw [h1]
  intro hcon
  have : (65000 : ℚ) = 50000 := Option.some.inj hcon
  norm_num at this

end JumboSearch
